import Mathlib

/-!
Verification of `extract_flashcards.py`.

The program extracts flashcards from a PDF laid out as a 2-column x 4-row
grid of mirrored question/answer cells and exports them in one of three
formats.  We embed the grid addressing model (`_cards`, `_get_rect`,
`_extract_pdf`, `_extract_image`) and the three export strategies
(`export_pdf_separate`, `export_pdf_merged`, `export_anki`) shallowly:

* page geometry is modelled over `ℚ` (the Python code computes with exact
  halving/quartering of page dimensions; we idealize IEEE floats as exact
  rational arithmetic);
* the external rendering engine (`fitz`) and the filesystem are modelled
  by an explicit environment of possibly-failing operations, so that the
  error-propagation and cleanup behaviour of the strategies can be stated;
* the success path of each strategy is additionally modelled as a pure
  function from the page dimensions to the list of produced artifacts.
-/

namespace FlashCards

/-- A flashcard tuple as yielded by `_cards`:
`(card_num, q_page, a_page, col, row)`. -/
structure Card where
  num : Nat
  qPage : Nat
  aPage : Nat
  col : Nat
  row : Nat
deriving DecidableEq

/-- The tuples produced by the loop body of `_cards`, before card numbering:
`for pair in range(len(doc) // 2): for row in range(4): for col in range(2):
yield (pair * 2, pair * 2 + 1, col, row)`. -/
def rawCards (pageCount : Nat) : List (Nat × Nat × Nat × Nat) :=
  (List.range (pageCount / 2)).flatMap fun pair =>
    (List.range 4).flatMap fun row =>
      (List.range 2).map fun col =>
        (pair * 2, pair * 2 + 1, col, row)

/-- Attach consecutive card numbers starting at `n`, mirroring the
`card_num = 1; ...; card_num += 1` counter threaded through `_cards`. -/
def numberFrom : Nat → List (Nat × Nat × Nat × Nat) → List Card
  | _, [] => []
  | n, (q, a, c, r) :: rest => Card.mk n q a c r :: numberFrom (n + 1) rest

/-- `_cards`: the full enumeration of cards of a document with `pageCount`
pages, numbered from 1. -/
def cards (pageCount : Nat) : List Card :=
  numberFrom 1 (rawCards pageCount)

/-- Closed form for the `i`-th (0-based) card of the enumeration. -/
def cardAt (i : Nat) : Card :=
  Card.mk (i + 1) (i / 8 * 2) (i / 8 * 2 + 1) (i % 2) (i % 8 / 2)

/-- An axis-aligned rectangle `[x0, y0, x1, y1]`, as `fitz.Rect`. -/
structure Rect where
  x0 : ℚ
  y0 : ℚ
  x1 : ℚ
  y1 : ℚ
deriving DecidableEq

def Rect.width (r : Rect) : ℚ := r.x1 - r.x0

def Rect.height (r : Rect) : ℚ := r.y1 - r.y0

/-- A point lies in the (closed) rectangle. -/
def Rect.mem (r : Rect) (p : ℚ × ℚ) : Prop :=
  r.x0 ≤ p.1 ∧ p.1 ≤ r.x1 ∧ r.y0 ≤ p.2 ∧ p.2 ≤ r.y1

/-- A point lies in the interior of the rectangle. -/
def Rect.memInterior (r : Rect) (p : ℚ × ℚ) : Prop :=
  r.x0 < p.1 ∧ p.1 < r.x1 ∧ r.y0 < p.2 ∧ p.2 < r.y1

instance (r : Rect) (p : ℚ × ℚ) : Decidable (r.mem p) := by
  unfold Rect.mem; infer_instance

instance (r : Rect) (p : ℚ × ℚ) : Decidable (r.memInterior p) := by
  unfold Rect.memInterior; infer_instance

/-- `_get_rect`: with `w, h = page.rect.width / 2, page.rect.height / 4`,
returns `fitz.Rect(col * w, row * h, (col + 1) * w, (row + 1) * h)`. -/
def getRect (pageW pageH : ℚ) (col row : Nat) : Rect :=
  Rect.mk (col * (pageW / 2)) (row * (pageH / 4))
    ((col + 1) * (pageW / 2)) ((row + 1) * (pageH / 4))

/-- One page of an output document, as produced by
`doc.new_page(width=rect.width, height=rect.height)` followed by
`new_page.show_pdf_page(new_page.rect, self.pdf_doc, page_num, clip=rect)`:
it records the new page's dimensions and the source page and clip
rectangle shown on it. -/
structure PageSpec where
  width : ℚ
  height : ℚ
  srcPage : Nat
  clip : Rect
deriving DecidableEq

/-- `_extract_pdf`: crop cell `(col, row)` of page `pageNum` to a fresh
single-page document.  `dims n` gives the width and height of source page
`n` (`page.rect.width`, `page.rect.height`). -/
def extractPdf (dims : Nat → ℚ × ℚ) (pageNum col row : Nat) : List PageSpec :=
  let rect := getRect (dims pageNum).1 (dims pageNum).2 col row
  [PageSpec.mk rect.width rect.height pageNum rect]

/-- The result of `page.get_pixmap(matrix=fitz.Matrix(dpi/72, dpi/72),
clip=rect).tobytes("png")`: a rasterized cell, recorded by its source page,
clip rectangle and resolution. -/
structure ImageSpec where
  srcPage : Nat
  clip : Rect
  dpi : Nat
deriving DecidableEq

/-- `_extract_image`: rasterize cell `(col, row)` of page `pageNum`. -/
def extractImage (dims : Nat → ℚ × ℚ) (pageNum col row dpi : Nat) : ImageSpec :=
  ImageSpec.mk pageNum (getRect (dims pageNum).1 (dims pageNum).2 col row) dpi

/-- Python formatting `f"{n:03d}"`: decimal digits of `n`, left-padded
with zeros to a minimum width of 3. -/
def pad3 (n : Nat) : String :=
  let s := toString n
  String.mk (List.replicate (3 - s.length) '0') ++ s

/-- A file written to the output directory: its name and, for the PDF
strategies, the document content. -/
structure FileWrite where
  name : String
  doc : List PageSpec
deriving DecidableEq

/-- `export_pdf_separate`, success path: the sequence of files written, in
order.  Per card, the front file (question cell at `(q_page, col, row)`)
then the back file (answer cell at `(a_page, 1 - col, row)`). -/
def exportPdfSeparate (dims : Nat → ℚ × ℚ) (pageCount : Nat) : List FileWrite :=
  (cards pageCount).flatMap fun cd =>
    [FileWrite.mk (pad3 cd.num ++ "-Front.pdf") (extractPdf dims cd.qPage cd.col cd.row),
     FileWrite.mk (pad3 cd.num ++ "-Back.pdf") (extractPdf dims cd.aPage (1 - cd.col) cd.row)]

/-- `merged.insert_pdf(src)`: append all pages of `src` to `dst`. -/
def insertPdf (dst src : List PageSpec) : List PageSpec := dst ++ src

/-- `export_pdf_merged`, success path: per card, a fresh empty document
receives the front sub-document then the back sub-document and is saved
under the `-Merged` name. -/
def exportPdfMerged (dims : Nat → ℚ × ℚ) (pageCount : Nat) : List FileWrite :=
  (cards pageCount).map fun cd =>
    let front := extractPdf dims cd.qPage cd.col cd.row
    let back := extractPdf dims cd.aPage (1 - cd.col) cd.row
    FileWrite.mk (pad3 cd.num ++ "-Merged.pdf") (insertPdf (insertPdf [] front) back)

/-- A `genanki.Note`: its field values (here, the two `<img>` snippets). -/
structure Note where
  fields : List String
deriving DecidableEq

/-- A staged media file: its path in the scratch directory and the image
written there. -/
structure MediaFile where
  path : String
  image : ImageSpec
deriving DecidableEq

/-- A `genanki.Package`: the deck's notes and the media file list. -/
structure Package where
  notes : List Note
  media : List MediaFile
deriving DecidableEq

/-- `export_anki`, success path: one note per card whose front field shows
the question image and whose back field shows the answer image; media
staged per card as `card_{num:03d}_q.png` then `card_{num:03d}_a.png`
under the scratch directory. -/
def exportAnkiPure (scratch : String) (dims : Nat → ℚ × ℚ) (pageCount : Nat) : Package :=
  Package.mk
    ((cards pageCount).map fun cd =>
      Note.mk ["<img src=\"card_" ++ pad3 cd.num ++ "_q.png\">",
               "<img src=\"card_" ++ pad3 cd.num ++ "_a.png\">"])
    ((cards pageCount).flatMap fun cd =>
      [MediaFile.mk (scratch ++ "/card_" ++ pad3 cd.num ++ "_q.png")
         (extractImage dims cd.qPage cd.col cd.row 300),
       MediaFile.mk (scratch ++ "/card_" ++ pad3 cd.num ++ "_a.png")
         (extractImage dims cd.aPage (1 - cd.col) cd.row 300)])

/-- The external collaborators (rendering engine and filesystem), each
operation possibly failing with an error of type `E`.  This is the
environment the export strategies run against; a raised Python exception
is an `Except.error`. -/
structure Env (E : Type) where
  renderPdf : Nat → Nat → Nat → Except E (List PageSpec)
  renderImage : Nat → Nat → Nat → Except E ImageSpec
  write : String → Except E Unit
  mkdir : Except E Unit
  writePackage : Except E Unit

/-- Run one per-card step over a list of cards, stopping at the first
error: returns the names of all files successfully written and the first
error, if any.  Errors are not caught: the loop aborts and the error is
returned as the outcome. -/
def runLoop {E α : Type} (step : α → List String × Option E) :
    List α → List String × Option E
  | [] => ([], none)
  | x :: rest =>
    match step x with
    | (ws, some e) => (ws, some e)
    | (ws, none) =>
      (ws ++ (runLoop step rest).1, (runLoop step rest).2)

/-- One iteration of the `export_pdf_separate` loop: render the question
cell, write the front file, render the answer cell at the mirrored column,
write the back file; abort at the first failing operation. -/
def sepStep {E : Type} (env : Env E) (cd : Card) : List String × Option E :=
  match env.renderPdf cd.qPage cd.col cd.row with
  | Except.error e => ([], some e)
  | Except.ok _ =>
    match env.write (pad3 cd.num ++ "-Front.pdf") with
    | Except.error e => ([], some e)
    | Except.ok _ =>
      match env.renderPdf cd.aPage (1 - cd.col) cd.row with
      | Except.error e => ([pad3 cd.num ++ "-Front.pdf"], some e)
      | Except.ok _ =>
        match env.write (pad3 cd.num ++ "-Back.pdf") with
        | Except.error e => ([pad3 cd.num ++ "-Front.pdf"], some e)
        | Except.ok _ =>
          ([pad3 cd.num ++ "-Front.pdf", pad3 cd.num ++ "-Back.pdf"], none)

/-- `export_pdf_separate` against an environment: create the output
directory, then run the per-card loop. -/
def exportPdfSeparateRun {E : Type} (env : Env E) (pageCount : Nat) :
    List String × Option E :=
  match env.mkdir with
  | Except.error e => ([], some e)
  | Except.ok _ => runLoop (sepStep env) (cards pageCount)

/-- One iteration of the `export_pdf_merged` loop: render both cells, then
save the merged document; abort at the first failing operation. -/
def mergStep {E : Type} (env : Env E) (cd : Card) : List String × Option E :=
  match env.renderPdf cd.qPage cd.col cd.row with
  | Except.error e => ([], some e)
  | Except.ok _ =>
    match env.renderPdf cd.aPage (1 - cd.col) cd.row with
    | Except.error e => ([], some e)
    | Except.ok _ =>
      match env.write (pad3 cd.num ++ "-Merged.pdf") with
      | Except.error e => ([], some e)
      | Except.ok _ => ([pad3 cd.num ++ "-Merged.pdf"], none)

/-- `export_pdf_merged` against an environment. -/
def exportPdfMergedRun {E : Type} (env : Env E) (pageCount : Nat) :
    List String × Option E :=
  match env.mkdir with
  | Except.error e => ([], some e)
  | Except.ok _ => runLoop (mergStep env) (cards pageCount)

/-- Lifecycle events of the scratch staging directory of `export_anki`:
`tempfile.mkdtemp()` creates it, `shutil.rmtree(temp_dir, ...)` removes
it. -/
inductive ScratchEv where
  | created
  | removed
deriving DecidableEq

/-- Whether the scratch directory exists after a sequence of lifecycle
events (it does not exist before the run). -/
def scratchExistsAfter (evs : List ScratchEv) : Bool :=
  evs.foldl (fun _ ev => match ev with | ScratchEv.created => true | ScratchEv.removed => false) false

/-- One iteration of the `export_anki` loop: rasterize the question cell,
stage it, rasterize the answer cell at the mirrored column, stage it;
abort at the first failing operation (adding the note is pure). -/
def ankiStep {E : Type} (env : Env E) (scratch : String) (cd : Card) :
    List String × Option E :=
  match env.renderImage cd.qPage cd.col cd.row with
  | Except.error e => ([], some e)
  | Except.ok _ =>
    match env.write (scratch ++ "/card_" ++ pad3 cd.num ++ "_q.png") with
    | Except.error e => ([], some e)
    | Except.ok _ =>
      match env.renderImage cd.aPage (1 - cd.col) cd.row with
      | Except.error e => ([scratch ++ "/card_" ++ pad3 cd.num ++ "_q.png"], some e)
      | Except.ok _ =>
        match env.write (scratch ++ "/card_" ++ pad3 cd.num ++ "_a.png") with
        | Except.error e => ([scratch ++ "/card_" ++ pad3 cd.num ++ "_q.png"], some e)
        | Except.ok _ =>
          ([scratch ++ "/card_" ++ pad3 cd.num ++ "_q.png",
            scratch ++ "/card_" ++ pad3 cd.num ++ "_a.png"], none)

/-- `export_anki` against an environment, with the scratch-directory
lifecycle explicit: `out.parent.mkdir` first; then `tempfile.mkdtemp()`
emits `created`; the `try` block runs the card loop and, on success,
serializes the package; the `finally` clause emits `removed` on every
exit path of the `try` block, success or error. -/
def exportAnkiRun {E : Type} (env : Env E) (scratch : String) (pageCount : Nat) :
    (List String × Option E) × List ScratchEv :=
  match env.mkdir with
  | Except.error e => (([], some e), [])
  | Except.ok _ =>
    (match runLoop (ankiStep env scratch) (cards pageCount) with
     | (ws, some e) => (ws, some e)
     | (ws, none) =>
       match env.writePackage with
       | Except.error e => (ws, some e)
       | Except.ok _ => (ws, none),
     [ScratchEv.created, ScratchEv.removed])


/-- A scratch directory name used for concrete instantiations. -/
def tmpDir : String := "tmp"

/-- An environment in which every operation succeeds (errors numbered). -/
def envOK : Env Nat :=
  Env.mk (fun _ _ _ => Except.ok [])
    (fun p _ _ => Except.ok (ImageSpec.mk p (Rect.mk 0 0 0 0) 300))
    (fun _ => Except.ok ()) (Except.ok ()) (Except.ok ())

/-- An environment in which rendering any cell of page 2 fails with
error 7 and every other operation succeeds. -/
def envBoom : Env Nat :=
  Env.mk (fun p _ _ => if p = 2 then Except.error 7 else Except.ok [])
    (fun p _ _ => if p = 2 then Except.error 7
      else Except.ok (ImageSpec.mk p (Rect.mk 0 0 0 0) 300))
    (fun _ => Except.ok ()) (Except.ok ()) (Except.ok ())

/-- The first eight cards of a 4-page document (page pair 0). -/
def cardsPair0 : List Card :=
  [Card.mk 1 0 1 0 0, Card.mk 2 0 1 1 0, Card.mk 3 0 1 0 1, Card.mk 4 0 1 1 1,
   Card.mk 5 0 1 0 2, Card.mk 6 0 1 1 2, Card.mk 7 0 1 0 3, Card.mk 8 0 1 1 3]

/-- The ninth card of a 4-page document: the first card whose question
page is page 2. -/
def card9 : Card := Card.mk 9 2 3 0 0

/-- The remaining cards of a 4-page document after the ninth. -/
def cardsAfter9 : List Card :=
  [Card.mk 10 2 3 1 0, Card.mk 11 2 3 0 1, Card.mk 12 2 3 1 1,
   Card.mk 13 2 3 0 2, Card.mk 14 2 3 1 2, Card.mk 15 2 3 0 3, Card.mk 16 2 3 1 3]

theorem numberFrom_length (n : Nat) (l : List (Nat × Nat × Nat × Nat)) :
    (numberFrom n l).length = l.length := by
  induction l generalizing n with
  | nil => rfl
  | cons x t ih =>
    obtain ⟨q, a, c, r⟩ := x
    simp [numberFrom, ih]

theorem numberFrom_append (xs ys : List (Nat × Nat × Nat × Nat)) (n : Nat) :
    numberFrom n (xs ++ ys) = numberFrom n xs ++ numberFrom (n + xs.length) ys := by
  induction xs generalizing n with
  | nil => simp [numberFrom]
  | cons x t ih =>
    obtain ⟨q, a, c, r⟩ := x
    simp only [List.cons_append, numberFrom, List.length_cons, List.append_eq]
    rw [ih]
    have h : n + 1 + t.length = n + (t.length + 1) := by omega
    rw [h]

theorem cards_aux (n : Nat) :
    numberFrom 1 ((List.range n).flatMap fun pair =>
      (List.range 4).flatMap fun row =>
        (List.range 2).map fun col => (pair * 2, pair * 2 + 1, col, row)) =
    (List.range (n * 8)).map cardAt := by
  induction n with
  | zero => rfl
  | succ m ih =>
    have hlen : ((List.range m).flatMap fun pair =>
        (List.range 4).flatMap fun row =>
          (List.range 2).map fun col => (pair * 2, pair * 2 + 1, col, row)).length = m * 8 := by
      have h := congrArg List.length ih
      simpa [numberFrom_length] using h
    rw [List.range_succ, List.flatMap_append, numberFrom_append, ih, hlen]
    have h8 : (m + 1) * 8 = m * 8 + 8 := by ring
    rw [h8, List.range_add, List.map_append]
    congr 1
    rw [show List.range 4 = [0, 1, 2, 3] from rfl,
        show List.range 2 = [0, 1] from rfl,
        show List.range 8 = [0, 1, 2, 3, 4, 5, 6, 7] from rfl]
    simp only [List.flatMap_cons, List.flatMap_nil, List.map_cons, List.map_nil,
      List.cons_append, List.nil_append, List.append_nil, numberFrom, cardAt,
      List.cons.injEq, Card.mk.injEq, and_true]
    omega

theorem cards_closed (pageCount : Nat) :
    cards pageCount = (List.range (pageCount / 2 * 8)).map cardAt :=
  cards_aux (pageCount / 2)

theorem cards_length (pageCount : Nat) :
    (cards pageCount).length = pageCount / 2 * 8 := by
  rw [cards_closed]
  simp

theorem cards_getElem (pageCount i : Nat) :
    (cards pageCount)[i]? =
      if i < pageCount / 2 * 8 then some (cardAt i) else none := by
  rw [cards_closed, List.getElem?_map]
  by_cases h : i < pageCount / 2 * 8
  · simp [List.getElem?_range, h]
  · simp [List.getElem?_range, h]
    omega

theorem flatMap_pair_length {α β : Type} (l : List α) (f g : α → β) :
    (l.flatMap fun x => [f x, g x]).length = 2 * l.length := by
  induction l with
  | nil => rfl
  | cons x t ih =>
    simp only [List.flatMap_cons, List.length_append, List.length_cons,
      List.length_nil, ih]
    omega

theorem flatMap_pair_getElem_even {α β : Type} (l : List α) (f g : α → β) (i : Nat) :
    (l.flatMap fun x => [f x, g x])[2 * i]? = (l[i]?).map f := by
  induction l generalizing i with
  | nil => simp
  | cons x t ih =>
    cases i with
    | zero => simp [List.flatMap_cons]
    | succ j =>
      have h2 : 2 * (j + 1) = 2 * j + 1 + 1 := by ring
      rw [List.flatMap_cons]
      rw [show ([f x, g x] ++ t.flatMap fun y => [f y, g y]) =
        f x :: g x :: t.flatMap fun y => [f y, g y] from rfl]
      rw [h2, List.getElem?_cons_succ, List.getElem?_cons_succ, ih,
        List.getElem?_cons_succ]

theorem flatMap_pair_getElem_odd {α β : Type} (l : List α) (f g : α → β) (i : Nat) :
    (l.flatMap fun x => [f x, g x])[2 * i + 1]? = (l[i]?).map g := by
  induction l generalizing i with
  | nil => simp
  | cons x t ih =>
    cases i with
    | zero => simp [List.flatMap_cons]
    | succ j =>
      have h2 : 2 * (j + 1) + 1 = 2 * j + 1 + 1 + 1 := by ring
      rw [List.flatMap_cons]
      rw [show ([f x, g x] ++ t.flatMap fun y => [f y, g y]) =
        f x :: g x :: t.flatMap fun y => [f y, g y] from rfl]
      rw [h2, List.getElem?_cons_succ, List.getElem?_cons_succ, ih,
        List.getElem?_cons_succ]


theorem runLoop_cons_ok {E α : Type} (step : α → List String × Option E)
    (x : α) (l : List α) (h : (step x).2 = none) :
    runLoop step (x :: l) =
      ((step x).1 ++ (runLoop step l).1, (runLoop step l).2) := by
  rcases hx : step x with ⟨ws, r⟩
  rw [hx] at h
  simp only at h
  subst h
  simp only [runLoop, hx]

theorem runLoop_cons_error {E α : Type} (step : α → List String × Option E)
    (x : α) (l : List α) (e : E) (h : (step x).2 = some e) :
    runLoop step (x :: l) = ((step x).1, some e) := by
  rcases hx : step x with ⟨ws, r⟩
  rw [hx] at h
  simp only at h
  subst h
  simp only [runLoop, hx]

theorem runLoop_append_ok {E α : Type} (step : α → List String × Option E)
    (l1 l2 : List α) (h : ∀ x ∈ l1, (step x).2 = none) :
    runLoop step (l1 ++ l2) =
      ((l1.flatMap fun x => (step x).1) ++ (runLoop step l2).1,
       (runLoop step l2).2) := by
  induction l1 with
  | nil => simp
  | cons x t ih =>
    have hx := h x (List.mem_cons_self x t)
    have ht : ∀ y ∈ t, (step y).2 = none := fun y hy => h y (List.mem_cons_of_mem x hy)
    rw [List.cons_append, runLoop_cons_ok step x (t ++ l2) hx, ih ht]
    simp [List.flatMap_cons, List.append_assoc]

theorem runLoop_first_error {E α : Type} (step : α → List String × Option E)
    (l1 : List α) (x : α) (l2 : List α) (e : E)
    (h1 : ∀ y ∈ l1, (step y).2 = none) (h2 : (step x).2 = some e) :
    runLoop step (l1 ++ x :: l2) =
      ((l1.flatMap fun y => (step y).1) ++ (step x).1, some e) := by
  rw [runLoop_append_ok step l1 (x :: l2) h1, runLoop_cons_error step x l2 e h2]

theorem band_disjoint (l x : ℚ) (a b : Nat) (hab : a ≠ b)
    (ha1 : (a : ℚ) * l < x) (ha2 : x < ((a : ℚ) + 1) * l)
    (hb1 : (b : ℚ) * l < x) (hb2 : x < ((b : ℚ) + 1) * l) : False := by
  rcases Nat.lt_or_ge a b with h | h
  · have hc : ((a : ℚ) + 1) ≤ (b : ℚ) := by exact_mod_cast h
    nlinarith
  · have h' : b < a := lt_of_le_of_ne h (Ne.symm hab)
    have hc : ((b : ℚ) + 1) ≤ (a : ℚ) := by exact_mod_cast h'
    nlinarith

theorem cover2 (l x : ℚ) (h0 : 0 ≤ x) (h1 : x ≤ 2 * l) :
    ∃ c : Nat, c < 2 ∧ (c : ℚ) * l ≤ x ∧ x ≤ ((c : ℚ) + 1) * l := by
  by_cases h : x ≤ l
  · refine ⟨0, by norm_num, ?_, ?_⟩ <;> push_cast <;> linarith
  · refine ⟨1, by norm_num, ?_, ?_⟩ <;> push_cast <;> linarith

theorem cover4 (l x : ℚ) (h0 : 0 ≤ x) (h1 : x ≤ 4 * l) :
    ∃ r : Nat, r < 4 ∧ (r : ℚ) * l ≤ x ∧ x ≤ ((r : ℚ) + 1) * l := by
  by_cases ha : x ≤ l
  · refine ⟨0, by norm_num, ?_, ?_⟩ <;> push_cast <;> linarith
  by_cases hb : x ≤ 2 * l
  · refine ⟨1, by norm_num, ?_, ?_⟩ <;> push_cast <;> linarith
  by_cases hc : x ≤ 3 * l
  · refine ⟨2, by norm_num, ?_, ?_⟩ <;> push_cast <;> linarith
  · refine ⟨3, by norm_num, ?_, ?_⟩ <;> push_cast <;> linarith

/-- **C2**: for every even page count `P`, the card enumeration yields
exactly `P / 2 * 8` cards whose `card_number` values are strictly
increasing and contiguous starting at 1, in the fixed order: page-pair
index ascending, then row `0..3`, then column `0..1`, with pair `k` using
question page `2k` and answer page `2k + 1`. -/
theorem cards_even_enumeration (P : Nat) (_hP : P % 2 = 0) :
    (cards P).length = P / 2 * 8 ∧
    ∀ i : Nat, (cards P)[i]? =
      if i < P / 2 * 8 then
        some (Card.mk (i + 1) (i / 8 * 2) (i / 8 * 2 + 1) (i % 2) (i % 8 / 2))
      else none :=
  ⟨cards_length P, fun i => cards_getElem P i⟩

theorem cards_even_enumeration_witness :
    (2 : Nat) % 2 = 0 ∧ (cards 2).length = 8 ∧
      (cards 2)[3]? = some (Card.mk 4 0 1 1 1) := by
  refine ⟨rfl, (cards_even_enumeration 2 rfl).1, ?_⟩
  have h := (cards_even_enumeration 2 rfl).2 3
  simpa using h

/-- **C3**: for every odd page count `P`, the card enumeration yields
exactly `⌊P / 2⌋ * 8` cards, and the last page (index `P - 1`) does not
occur as `q_page` or `a_page` in any yielded card. -/
theorem cards_odd_enumeration (P : Nat) (hP : P % 2 = 1) :
    (cards P).length = P / 2 * 8 ∧
    ∀ cd ∈ cards P, cd.qPage ≠ P - 1 ∧ cd.aPage ≠ P - 1 := by
  refine ⟨cards_length P, ?_⟩
  intro cd hcd
  rw [cards_closed] at hcd
  obtain ⟨i, hi, rfl⟩ := List.mem_map.mp hcd
  rw [List.mem_range] at hi
  unfold cardAt
  simp only [ne_eq]
  omega

theorem cards_odd_enumeration_witness :
    (3 : Nat) % 2 = 1 ∧ (cards 3).length = 8 ∧
      (Card.mk 1 0 1 0 0).qPage ≠ 2 ∧ (Card.mk 1 0 1 0 0).aPage ≠ 2 := by
  refine ⟨rfl, (cards_odd_enumeration 3 rfl).1, ?_⟩
  exact (cards_odd_enumeration 3 rfl).2 (Card.mk 1 0 1 0 0) (by decide)



/-- **C4**: for any page with positive width `W` and height `H`,
`_get_rect` returns `[col * W/2, row * H/4] x [(col+1) * W/2, (row+1) * H/4]`;
over the 8 valid `(col, row)` pairs the rectangles have pairwise disjoint
interiors and their union is exactly the full page bounds `[0, W] x [0, H]`,
with no gap and no overlap. -/
theorem getRect_partition (W H : ℚ) (hW : 0 < W) (hH : 0 < H) :
    (∀ col row : Nat,
      getRect W H col row =
        Rect.mk (col * (W / 2)) (row * (H / 4))
          ((col + 1) * (W / 2)) ((row + 1) * (H / 4))) ∧
    (∀ c1 r1 c2 r2 : Nat, c1 < 2 → r1 < 4 → c2 < 2 → r2 < 4 →
      (c1, r1) ≠ (c2, r2) →
      ∀ p : ℚ × ℚ,
        ¬((getRect W H c1 r1).memInterior p ∧ (getRect W H c2 r2).memInterior p)) ∧
    (∀ p : ℚ × ℚ,
      (∃ c r : Nat, c < 2 ∧ r < 4 ∧ (getRect W H c r).mem p) ↔
        (0 ≤ p.1 ∧ p.1 ≤ W ∧ 0 ≤ p.2 ∧ p.2 ≤ H)) := by
  refine ⟨fun col row => rfl, ?_, ?_⟩
  · intro c1 r1 c2 r2 hc1 hr1 hc2 hr2 hne p hp
    obtain ⟨h1, h2⟩ := hp
    unfold Rect.memInterior getRect at h1 h2
    simp only at h1 h2
    have hcr : c1 ≠ c2 ∨ r1 ≠ r2 := by
      by_contra hc
      push_neg at hc
      exact hne (by rw [hc.1, hc.2])
    rcases hcr with h | h
    · exact band_disjoint (W / 2) p.1 c1 c2 h h1.1 h1.2.1 h2.1 h2.2.1
    · exact band_disjoint (H / 4) p.2 r1 r2 h h1.2.2.1 h1.2.2.2 h2.2.2.1 h2.2.2.2
  · intro p
    constructor
    · rintro ⟨c, r, hc, hr, hmem⟩
      unfold Rect.mem getRect at hmem
      simp only at hmem
      obtain ⟨hx0, hx1, hy0, hy1⟩ := hmem
      have hcQ : (c : ℚ) ≤ 1 := by exact_mod_cast Nat.lt_succ_iff.mp hc
      have hrQ : (r : ℚ) ≤ 3 := by exact_mod_cast Nat.lt_succ_iff.mp hr
      have hc0 : (0 : ℚ) ≤ (c : ℚ) := Nat.cast_nonneg c
      have hr0 : (0 : ℚ) ≤ (r : ℚ) := Nat.cast_nonneg r
      refine ⟨?_, ?_, ?_, ?_⟩ <;> nlinarith
    · rintro ⟨h0x, h1x, h0y, h1y⟩
      obtain ⟨c, hc, hcl, hcr⟩ := cover2 (W / 2) p.1 h0x (by linarith)
      obtain ⟨r, hr, hrl, hrr⟩ := cover4 (H / 4) p.2 h0y (by linarith)
      exact ⟨c, r, hc, hr, hcl, hcr, hrl, hrr⟩

theorem getRect_partition_witness :
    (0 : ℚ) < 2 ∧ (0 : ℚ) < 4 ∧
      (∃ c r : Nat, c < 2 ∧ r < 4 ∧ (getRect 2 4 c r).mem (1, 1)) := by
  refine ⟨by norm_num, by norm_num, ?_⟩
  exact ((getRect_partition 2 4 (by norm_num) (by norm_num)).2.2 (1, 1)).mpr
    (by norm_num)



theorem extractPdf_dims (dims : Nat → ℚ × ℚ) (p c r : Nat) :
    ∃ pg : PageSpec, extractPdf dims p c r = [pg] ∧ pg.srcPage = p ∧
      pg.width = (dims p).1 / 2 ∧ pg.height = (dims p).2 / 4 := by
  refine ⟨_, rfl, rfl, ?_, ?_⟩
  · show (getRect (dims p).1 (dims p).2 c r).width = (dims p).1 / 2
    unfold getRect Rect.width
    push_cast
    ring
  · show (getRect (dims p).1 (dims p).2 c r).height = (dims p).2 / 4
    unfold getRect Rect.height
    push_cast
    ring

/-- **C8**: for every source yielding `N` cards, `export_pdf_separate`
writes exactly `2 * N` files, the file at position `2i` being
`{num:03d}-Front.pdf` and the one at position `2i + 1` being
`{num:03d}-Back.pdf` for the `i`-th card; in particular an 8-card source
(2 pages) produces exactly 16 such files. -/
theorem export_pdf_separate_files (dims : Nat → ℚ × ℚ) (P : Nat) :
    (exportPdfSeparate dims P).length = 2 * (cards P).length ∧
    (∀ i : Nat, (exportPdfSeparate dims P)[2 * i]? =
      ((cards P)[i]?).map fun cd =>
        FileWrite.mk (pad3 cd.num ++ "-Front.pdf")
          (extractPdf dims cd.qPage cd.col cd.row)) ∧
    (∀ i : Nat, (exportPdfSeparate dims P)[2 * i + 1]? =
      ((cards P)[i]?).map fun cd =>
        FileWrite.mk (pad3 cd.num ++ "-Back.pdf")
          (extractPdf dims cd.aPage (1 - cd.col) cd.row)) ∧
    (cards 2).length = 8 ∧ (exportPdfSeparate dims 2).length = 16 := by
  unfold exportPdfSeparate
  refine ⟨flatMap_pair_length _ _ _,
    fun i => flatMap_pair_getElem_even _ _ _ i,
    fun i => flatMap_pair_getElem_odd _ _ _ i, ?_, ?_⟩
  · rw [cards_length]
  · rw [flatMap_pair_length, cards_length]

/-- **C5**: for every card, `export_pdf_merged` produces exactly one
artifact, containing exactly two pages, the question cell's page first
and the answer cell's page second, written as one file named by the
zero-padded card number with a `-Merged` suffix. -/
theorem export_pdf_merged_artifacts (dims : Nat → ℚ × ℚ) (P : Nat) :
    (exportPdfMerged dims P).length = (cards P).length ∧
    ∀ (i : Nat) (cd : Card), (cards P)[i]? = some cd →
      ∃ qp ap : PageSpec,
        (exportPdfMerged dims P)[i]? =
          some (FileWrite.mk (pad3 cd.num ++ "-Merged.pdf") [qp, ap]) ∧
        extractPdf dims cd.qPage cd.col cd.row = [qp] ∧
        extractPdf dims cd.aPage (1 - cd.col) cd.row = [ap] := by
  constructor
  · unfold exportPdfMerged
    simp
  · intro i cd hcd
    unfold exportPdfMerged insertPdf
    rw [List.getElem?_map, hcd]
    exact ⟨_, _, rfl, rfl, rfl⟩

theorem export_pdf_merged_artifacts_witness :
    ∃ qp ap : PageSpec,
      (exportPdfMerged (fun _ => (2, 4)) 2)[0]? =
        some (FileWrite.mk (pad3 1 ++ "-Merged.pdf") [qp, ap]) ∧
      extractPdf (fun _ => (2, 4)) 0 0 0 = [qp] ∧
      extractPdf (fun _ => (2, 4)) 1 1 0 = [ap] :=
  (export_pdf_merged_artifacts (fun _ => (2, 4)) 2).2 0 (Card.mk 1 0 1 0 0)
    (by decide)



/-- **C10**: every front/back sub-document produced by the separate-files
and merged strategies is a single-page document whose page width equals
half the source page's width and whose page height equals a quarter of
the source page's height, for every card and both sides. -/
theorem subdocument_dimensions (dims : Nat → ℚ × ℚ) (P : Nat) :
    (∀ fw ∈ exportPdfSeparate dims P, ∃ pg : PageSpec, fw.doc = [pg] ∧
      pg.width = (dims pg.srcPage).1 / 2 ∧ pg.height = (dims pg.srcPage).2 / 4) ∧
    (∀ fw ∈ exportPdfMerged dims P, ∀ pg ∈ fw.doc,
      pg.width = (dims pg.srcPage).1 / 2 ∧ pg.height = (dims pg.srcPage).2 / 4) := by
  constructor
  · intro fw hfw
    unfold exportPdfSeparate at hfw
    rw [List.mem_flatMap] at hfw
    obtain ⟨cd, _, hmem⟩ := hfw
    simp only [List.mem_cons, List.not_mem_nil, or_false] at hmem
    rcases hmem with rfl | rfl
    · obtain ⟨pg, he, hs, hw, hh⟩ := extractPdf_dims dims cd.qPage cd.col cd.row
      exact ⟨pg, he, by rw [hs]; exact hw, by rw [hs]; exact hh⟩
    · obtain ⟨pg, he, hs, hw, hh⟩ := extractPdf_dims dims cd.aPage (1 - cd.col) cd.row
      exact ⟨pg, he, by rw [hs]; exact hw, by rw [hs]; exact hh⟩
  · intro fw hfw pg hpg
    unfold exportPdfMerged insertPdf at hfw
    rw [List.mem_map] at hfw
    obtain ⟨cd, _, rfl⟩ := hfw
    simp only [List.nil_append, List.mem_append] at hpg
    rcases hpg with h | h
    · obtain ⟨pg2, he, hs, hw, hh⟩ := extractPdf_dims dims cd.qPage cd.col cd.row
      rw [he, List.mem_singleton] at h
      subst h
      rw [hs]
      exact ⟨hw, hh⟩
    · obtain ⟨pg2, he, hs, hw, hh⟩ := extractPdf_dims dims cd.aPage (1 - cd.col) cd.row
      rw [he, List.mem_singleton] at h
      subst h
      rw [hs]
      exact ⟨hw, hh⟩

theorem subdocument_dimensions_witness :
    ∃ pg : PageSpec,
      (FileWrite.mk (pad3 1 ++ "-Front.pdf")
        (extractPdf (fun _ => ((2 : ℚ), (4 : ℚ))) 0 0 0)).doc = [pg] ∧
      pg.width = ((fun _ : Nat => ((2 : ℚ), (4 : ℚ))) pg.srcPage).1 / 2 ∧
      pg.height = ((fun _ : Nat => ((2 : ℚ), (4 : ℚ))) pg.srcPage).2 / 4 :=
  (subdocument_dimensions (fun _ => ((2 : ℚ), (4 : ℚ))) 2).1
    (FileWrite.mk (pad3 1 ++ "-Front.pdf")
      (extractPdf (fun _ => ((2 : ℚ), (4 : ℚ))) 0 0 0))
    (by
      unfold exportPdfSeparate
      rw [List.mem_flatMap]
      exact ⟨Card.mk 1 0 1 0 0, by decide, List.mem_cons_self _ _⟩)

/-- **C1**: in every export strategy, for every card yielded by the
enumeration, the answer cell is read from the answer page at column
`1 - c` and the same row `r`, where `(c, r)` are the question cell's
column and row; this holds for every card of every source with at least
one page pair. -/
theorem mirroring_invariant (dims : Nat → ℚ × ℚ) (scratch : String) (P : Nat)
    (_hP : 2 ≤ P) :
    ∀ (i : Nat) (cd : Card), (cards P)[i]? = some cd →
      cd.col < 2 ∧ cd.row < 4 ∧ cd.aPage = cd.qPage + 1 ∧
      (exportPdfSeparate dims P)[2 * i]? =
        some (FileWrite.mk (pad3 cd.num ++ "-Front.pdf")
          (extractPdf dims cd.qPage cd.col cd.row)) ∧
      (exportPdfSeparate dims P)[2 * i + 1]? =
        some (FileWrite.mk (pad3 cd.num ++ "-Back.pdf")
          (extractPdf dims cd.aPage (1 - cd.col) cd.row)) ∧
      (exportPdfMerged dims P)[i]? =
        some (FileWrite.mk (pad3 cd.num ++ "-Merged.pdf")
          (extractPdf dims cd.qPage cd.col cd.row ++
            extractPdf dims cd.aPage (1 - cd.col) cd.row)) ∧
      (exportAnkiPure scratch dims P).media[2 * i]? =
        some (MediaFile.mk (scratch ++ "/card_" ++ pad3 cd.num ++ "_q.png")
          (extractImage dims cd.qPage cd.col cd.row 300)) ∧
      (exportAnkiPure scratch dims P).media[2 * i + 1]? =
        some (MediaFile.mk (scratch ++ "/card_" ++ pad3 cd.num ++ "_a.png")
          (extractImage dims cd.aPage (1 - cd.col) cd.row 300)) := by
  intro i cd hcd
  have h := cards_getElem P i
  rw [hcd] at h
  by_cases hi : i < P / 2 * 8
  · rw [if_pos hi] at h
    have hcd2 : cd = cardAt i := by
      injection h with h
    subst hcd2
    refine ⟨by show i % 2 < 2; omega, by show i % 8 / 2 < 4; omega, rfl,
      ?_, ?_, ?_, ?_, ?_⟩
    · have he := flatMap_pair_getElem_even (cards P)
        (fun c => FileWrite.mk (pad3 c.num ++ "-Front.pdf")
          (extractPdf dims c.qPage c.col c.row))
        (fun c => FileWrite.mk (pad3 c.num ++ "-Back.pdf")
          (extractPdf dims c.aPage (1 - c.col) c.row)) i
      rw [hcd] at he
      exact he
    · have he := flatMap_pair_getElem_odd (cards P)
        (fun c => FileWrite.mk (pad3 c.num ++ "-Front.pdf")
          (extractPdf dims c.qPage c.col c.row))
        (fun c => FileWrite.mk (pad3 c.num ++ "-Back.pdf")
          (extractPdf dims c.aPage (1 - c.col) c.row)) i
      rw [hcd] at he
      exact he
    · have he := List.getElem?_map
        (fun c => FileWrite.mk (pad3 c.num ++ "-Merged.pdf")
          (insertPdf (insertPdf [] (extractPdf dims c.qPage c.col c.row))
            (extractPdf dims c.aPage (1 - c.col) c.row))) (cards P) i
      rw [hcd] at he
      exact he
    · have he := flatMap_pair_getElem_even (cards P)
        (fun c => MediaFile.mk (scratch ++ "/card_" ++ pad3 c.num ++ "_q.png")
          (extractImage dims c.qPage c.col c.row 300))
        (fun c => MediaFile.mk (scratch ++ "/card_" ++ pad3 c.num ++ "_a.png")
          (extractImage dims c.aPage (1 - c.col) c.row 300)) i
      rw [hcd] at he
      exact he
    · have he := flatMap_pair_getElem_odd (cards P)
        (fun c => MediaFile.mk (scratch ++ "/card_" ++ pad3 c.num ++ "_q.png")
          (extractImage dims c.qPage c.col c.row 300))
        (fun c => MediaFile.mk (scratch ++ "/card_" ++ pad3 c.num ++ "_a.png")
          (extractImage dims c.aPage (1 - c.col) c.row 300)) i
      rw [hcd] at he
      exact he
  · rw [if_neg hi] at h
    exact Option.noConfusion h

theorem mirroring_invariant_witness :
    (2 ≤ 2 ∧ (cards 2)[0]? = some (Card.mk 1 0 1 0 0)) ∧
      (Card.mk 1 0 1 0 0).col < 2 ∧
      (exportPdfSeparate (fun _ => ((2 : ℚ), (4 : ℚ))) 2)[1]? =
        some (FileWrite.mk (pad3 1 ++ "-Back.pdf")
          (extractPdf (fun _ => ((2 : ℚ), (4 : ℚ))) 1 (1 - 0) 0)) := by
  have h := mirroring_invariant (fun _ => ((2 : ℚ), (4 : ℚ))) tmpDir 2
    (by omega) 0 (Card.mk 1 0 1 0 0) (by decide)
  exact ⟨⟨by omega, by decide⟩, h.1, h.2.2.2.2.1⟩



/-- **C6**: the scratch staging directory of `export_anki` is removed on
every exit path: after the strategy returns normally, and after any error
raised while extracting, staging, or serializing propagates, the scratch
location no longer exists — for every environment, scratch name and page
count. -/
theorem export_anki_scratch_cleanup {E : Type} (env : Env E) (scratch : String)
    (P : Nat) :
    scratchExistsAfter (exportAnkiRun env scratch P).2 = false := by
  unfold exportAnkiRun
  cases h : env.mkdir with
  | error e => rfl
  | ok u => rfl

/-- **C7**: in all three export strategies, if every card before `cd`
succeeds and some operation on `cd` raises error `e`, then the export's
outcome is exactly that error (not caught, not retried), the run is the
same as if the cards after `cd` did not exist (no later card is
processed), and the files already written for the earlier cards — and,
for the separate-files strategy, a possibly written front file of `cd` —
remain (no rollback). -/
theorem export_error_propagates {E : Type} (env : Env E) (scratch : String)
    (P : Nat) (l1 : List Card) (cd : Card) (l2 : List Card) (e : E)
    (hsplit : cards P = l1 ++ cd :: l2) (hmk : env.mkdir = Except.ok ()) :
    ((∀ x ∈ l1, (sepStep env x).2 = none) → (sepStep env cd).2 = some e →
      exportPdfSeparateRun env P =
        ((l1.flatMap fun y => (sepStep env y).1) ++ (sepStep env cd).1, some e) ∧
      exportPdfSeparateRun env P = runLoop (sepStep env) (l1 ++ [cd])) ∧
    ((∀ x ∈ l1, (mergStep env x).2 = none) → (mergStep env cd).2 = some e →
      exportPdfMergedRun env P =
        ((l1.flatMap fun y => (mergStep env y).1) ++ (mergStep env cd).1, some e) ∧
      exportPdfMergedRun env P = runLoop (mergStep env) (l1 ++ [cd])) ∧
    ((∀ x ∈ l1, (ankiStep env scratch x).2 = none) →
      (ankiStep env scratch cd).2 = some e →
      (exportAnkiRun env scratch P).1 =
        ((l1.flatMap fun y => (ankiStep env scratch y).1) ++
          (ankiStep env scratch cd).1, some e)) := by
  refine ⟨fun h1 h2 => ⟨?_, ?_⟩, fun h1 h2 => ⟨?_, ?_⟩, fun h1 h2 => ?_⟩
  · unfold exportPdfSeparateRun
    rw [hmk, hsplit]
    exact runLoop_first_error (sepStep env) l1 cd l2 e h1 h2
  · unfold exportPdfSeparateRun
    rw [hmk, hsplit]
    rw [runLoop_first_error (sepStep env) l1 cd l2 e h1 h2,
      runLoop_first_error (sepStep env) l1 cd [] e h1 h2]
  · unfold exportPdfMergedRun
    rw [hmk, hsplit]
    exact runLoop_first_error (mergStep env) l1 cd l2 e h1 h2
  · unfold exportPdfMergedRun
    rw [hmk, hsplit]
    rw [runLoop_first_error (mergStep env) l1 cd l2 e h1 h2,
      runLoop_first_error (mergStep env) l1 cd [] e h1 h2]
  · unfold exportAnkiRun
    rw [hmk, hsplit, runLoop_first_error (ankiStep env scratch) l1 cd l2 e h1 h2]

theorem export_error_propagates_witness :
    exportPdfSeparateRun envBoom 4 =
      ((cardsPair0.flatMap fun y => (sepStep envBoom y).1) ++
        (sepStep envBoom card9).1, some 7) ∧
      exportPdfSeparateRun envBoom 4 =
        runLoop (sepStep envBoom) (cardsPair0 ++ [card9]) :=
  (export_error_propagates envBoom tmpDir 4 cardsPair0 card9 cardsAfter9 7
    (by decide) rfl).1 (by decide) (by decide)

/-- **C9**: for a source with fewer than two pages (page count 0 or 1),
the card enumeration yields zero cards, yet each export strategy still
completes successfully: the separate-files and merged strategies perform
no file writes and return no error, and the package strategy returns no
error and a package containing zero notes and zero media files. -/
theorem empty_source_exports (dims : Nat → ℚ × ℚ) {E : Type} (env : Env E)
    (scratch : String) (P : Nat) (hP : P < 2)
    (hmk : env.mkdir = Except.ok ()) (hpkg : env.writePackage = Except.ok ()) :
    cards P = [] ∧
    exportPdfSeparateRun env P = ([], none) ∧
    exportPdfMergedRun env P = ([], none) ∧
    (exportAnkiRun env scratch P).1 = ([], none) ∧
    exportAnkiPure scratch dims P = Package.mk [] [] := by
  have hc : cards P = [] := by
    have h0 : P / 2 = 0 := by omega
    unfold cards rawCards
    rw [h0]
    rfl
  refine ⟨hc, ?_, ?_, ?_, ?_⟩
  · unfold exportPdfSeparateRun
    rw [hmk, hc]
    rfl
  · unfold exportPdfMergedRun
    rw [hmk, hc]
    rfl
  · unfold exportAnkiRun
    rw [hmk, hc, hpkg]
    rfl
  · unfold exportAnkiPure
    rw [hc]
    rfl

theorem empty_source_exports_witness :
    (1 : Nat) < 2 ∧ envOK.mkdir = Except.ok () ∧
      envOK.writePackage = Except.ok () ∧ cards 1 = [] ∧
      exportPdfSeparateRun envOK 1 = ([], none) ∧
      (exportAnkiRun envOK tmpDir 1).1 = ([], none) := by
  refine ⟨by omega, rfl, rfl, ?_, ?_, ?_⟩
  · exact (empty_source_exports (fun _ => (2, 4)) envOK tmpDir 1 (by omega) rfl rfl).1
  · exact (empty_source_exports (fun _ => (2, 4)) envOK tmpDir 1 (by omega) rfl rfl).2.1
  · exact (empty_source_exports (fun _ => (2, 4)) envOK tmpDir 1
      (by omega) rfl rfl).2.2.2.1


end FlashCards
